import Mathlib

/-!
Verification development for the simplecov-resultset-diff-action repository.

The action compares two SimpleCov resultset snapshots (base and head),
computes per-file line/branch coverage percentages, diffs them, and renders
a report.  JavaScript numbers are modelled as rationals (`ℚ`), JavaScript
strings as Lean `String` values viewed as their character sequences, JSON
null as `Option.none`, and insertion-ordered string-keyed objects as
association lists.
-/

namespace SimplecovDiff

/-- Modelled from the spec: the per-file coverage record of `simplecov.js`
(not present under `src/`).  `lines` is one entry per source line, `none`
marking a non-instrumentable line; `branches` maps branch identifiers to
hit counts. -/
structure FileCoverage where
  lines : List (Option Nat)
  branches : List (String × Nat)
deriving DecidableEq

/-- Modelled from the spec: a raw ResultSet maps each top-level suite name
to its `coverage` mapping from file path to per-file record. -/
abbrev ResultSet := List (String × List (String × FileCoverage))

/-- Modelled from the spec: the count of instrumentable (non-null) entries
of a `lines` array. -/
def instrumentableCount (lines : List (Option Nat)) : Nat :=
  lines.countP (fun e => e.isSome)

/-- Modelled from the spec: the count of line entries with hit count
greater than zero. -/
def coveredCount (lines : List (Option Nat)) : Nat :=
  lines.countP (fun e =>
    match e with
    | some n => decide (0 < n)
    | none => false)

/-- Modelled from the spec: the line-coverage percentage of one file
(`simplecov.js` coverage calculator, not present under `src/`): null when
there are no instrumentable lines, else covered / instrumentable * 100 at
full precision. -/
def linesPercentage (lines : List (Option Nat)) : Option ℚ :=
  if instrumentableCount lines = 0 then none
  else some ((coveredCount lines : ℚ) / (instrumentableCount lines : ℚ) * 100)

/-- Modelled from the spec: the branch-coverage percentage of one file:
null when the branch mapping is empty, else covered branches / total
branches * 100. -/
def branchesPercentage (branches : List (String × Nat)) : Option ℚ :=
  if branches.length = 0 then none
  else some (((branches.countP (fun b => decide (0 < b.2))) : ℚ) / (branches.length : ℚ) * 100)

/-- Modelled from the spec: merge of two line entries for the same source
line across suites: hit counts are summed, a null entry is absorbed. -/
def mergeLine : Option Nat → Option Nat → Option Nat
  | some a, some b => some (a + b)
  | some a, none => some a
  | none, some b => some b
  | none, none => none

/-- Modelled from the spec: positional element-wise merge of two `lines`
arrays (the spec assumes equal lengths across suites for one file). -/
def mergeLines (l₁ l₂ : List (Option Nat)) : List (Option Nat) :=
  List.zipWith mergeLine l₁ l₂

/-- Modelled from the spec: key-union merge of two branch mappings, hit
counts summed, a missing key treated as 0. -/
def mergeBranches (b₁ b₂ : List (String × Nat)) : List (String × Nat) :=
  b₁.map (fun kv => (kv.1, kv.2 + ((b₂.lookup kv.1).getD 0))) ++
    b₂.filter (fun kv => (b₁.lookup kv.1).isNone)

/-- Modelled from the spec: merge of two per-file records reported by two
different suites for the same file path. -/
def mergeFileCoverage (f₁ f₂ : FileCoverage) : FileCoverage :=
  ⟨mergeLines f₁.lines f₂.lines, mergeBranches f₁.branches f₂.branches⟩

/-- Modelled from the spec: the merged coverage document built from a
ResultSet, keyed by file path in first-seen order. -/
structure Coverage where
  files : List (String × FileCoverage)
deriving DecidableEq

/-- Modelled from the spec: add one (file path, record) pair into the
accumulated document: store it if the path is unseen, merge otherwise. -/
def addFile (acc : List (String × FileCoverage)) (entry : String × FileCoverage) :
    List (String × FileCoverage) :=
  match acc.lookup entry.1 with
  | none => acc ++ [entry]
  | some _ => acc.map (fun kv => if kv.1 = entry.1 then (kv.1, mergeFileCoverage kv.2 entry.2) else kv)

/-- Modelled from the spec: build the merged coverage document by iterating
all suites of the ResultSet and all files of each suite. -/
def buildCoverage (rs : ResultSet) : Coverage :=
  ⟨rs.foldl (fun acc suite => suite.2.foldl addFile acc) []⟩

/-- Modelled from the spec: one side of a diff cell, null when the file was
absent from that snapshot or had nothing instrumentable. -/
structure DiffEntry where
  «from» : Option ℚ
  «to» : Option ℚ
deriving DecidableEq

/-- Modelled from the spec: one per-file diff record produced by the diff
engine of `simplecov.js`. -/
structure FileCoverageDiff where
  filename : String
  lines : DiffEntry
  branches : DiffEntry
deriving DecidableEq

/-- Modelled from the spec: the file paths known to a coverage document, in
document order. -/
def covPaths (c : Coverage) : List String :=
  c.files.map Prod.fst

/-- Modelled from the spec: first-seen-order deduplication of a path list. -/
def firstSeen : List String → List String
  | [] => []
  | x :: xs => x :: firstSeen (xs.filter (fun y => decide (y ≠ x)))
termination_by l => l.length
decreasing_by
  simp only [List.length_cons]
  exact Nat.lt_succ_of_le (List.length_filter_le _ _)

/-- Modelled from the spec: the union of the file paths of both documents,
head paths in first-seen order followed by base-only paths. -/
def unionPaths (base head : Coverage) : List String :=
  firstSeen (covPaths head ++ covPaths base)

/-- Modelled from the spec: the diff record for one file path, skipped only
when neither document has a record for the path. -/
def diffRecord (base head : Coverage) (p : String) : Option FileCoverageDiff :=
  match base.files.lookup p, head.files.lookup p with
  | none, none => none
  | fb, fh =>
    some ⟨p,
      ⟨fb.bind (fun fc => linesPercentage fc.lines), fh.bind (fun fc => linesPercentage fc.lines)⟩,
      ⟨fb.bind (fun fc => branchesPercentage fc.branches),
        fh.bind (fun fc => branchesPercentage fc.branches)⟩⟩

/-- Modelled from the spec: the diff engine `getCoverageDiff` of
`simplecov.js` (not present under `src/`): one record per file path of the
union, in deterministic order. -/
def getCoverageDiff (base head : Coverage) : List FileCoverageDiff :=
  (unionPaths base head).filterMap (diffRecord base head)

/-- JavaScript `Math.sign`, over the rational model of JS numbers. -/
def jsSign (x : ℚ) : ℚ :=
  if 0 < x then 1 else if x < 0 then -1 else 0

/-- JavaScript `Math.trunc` (truncation toward zero), over the rational
model of JS numbers. -/
def jsTrunc (x : ℚ) : ℤ :=
  if 0 ≤ x then ⌊x⌋ else -⌊-x⌋

/-- JavaScript `%` (remainder with the sign of the dividend), over the
rational model of JS numbers. -/
def jsMod (x y : ℚ) : ℚ :=
  x - y * (jsTrunc (x / y) : ℚ)

/-- From `src/main.ts` (`truncPercentage`): sign-preserving truncation of a
percentage to one decimal place. -/
def truncPercentage (n : ℚ) : ℚ :=
  jsSign n * ((jsTrunc (|n| * 10) : ℚ) / 10)

/-- From `src/main.ts` (`badgeUrl`): the URL of the badge image encoding the
direction and truncated magnitude of the percentage change.  Number
rendering inside the URL uses the rational model's `toString`. -/
def badgeUrl (f t : ℚ) : String :=
  let top := "https://raw.githubusercontent.com/kzkn/simplecov-resultset-diff-action/main/assets"
  let d := |truncPercentage (t - f)|
  if d = 0 then top ++ "/0.svg"
  else
    let dir := if jsSign (t - f) < 0 then "down" else "up"
    let n := jsTrunc d
    let m := jsMod (d * 10) 10
    top ++ "/" ++ dir ++ "/" ++ toString n ++ "/" ++ toString n ++ "." ++ toString m ++ ".svg"

/-- From `src/main.ts` (`formatDiffItem`): render one diff cell, prefixing
`NEW` when the file exists only in head and `DELETE` when it exists only in
base; the percentage part is present whenever the head value is non-null,
the badge whenever both values are non-null. -/
def formatDiffItem (item : DiffEntry) : String :=
  let p := match item.«to» with
    | some t => " " ++ toString (truncPercentage t) ++ "%"
    | none => ""
  let badge := match item.«from», item.«to» with
    | some f, some t =>
      " ![" ++ toString (truncPercentage (t - f)) ++ "%](" ++ badgeUrl f t ++ ")"
    | _, _ => ""
  let created := match item.«from», item.«to» with
    | none, some _ => "NEW"
    | _, _ => ""
  let deleted := match item.«from», item.«to» with
    | some _, none => "DELETE"
    | _, _ => ""
  created ++ deleted ++ p ++ badge

/-- JavaScript `String.prototype.startsWith`, over the character-sequence
model of JS strings. -/
def jsStartsWith (s pre : String) : Bool :=
  pre.data.isPrefixOf s.data

/-- JavaScript `String.prototype.slice(n)`, over the character-sequence
model of JS strings. -/
def jsDropChars (s : String) (n : Nat) : String :=
  ⟨s.data.drop n⟩

/-- JavaScript `String.prototype.length`, over the character-sequence model
of JS strings. -/
def jsLength (s : String) : Nat :=
  s.data.length

/-- From `src/main.ts` (`trimWorkspacePath`): drop the workspace root plus
a slash from the front of a filename when present; the ambient
`GITHUB_WORKSPACE` value is passed explicitly as `ws`. -/
def trimWorkspacePath (ws filename : String) : String :=
  let workspace := ws ++ "/"
  if jsStartsWith filename workspace then jsDropChars filename (jsLength workspace)
  else filename

/-- From `src/main.ts` (`formatDiff`): render one diff record as the three
table cells of its report row. -/
def formatDiff (ws : String) (diff : FileCoverageDiff) : List String :=
  [trimWorkspacePath ws diff.filename, formatDiffItem diff.lines, formatDiffItem diff.branches]

/-- Report content produced by `run`: either the literal no-difference
string or the row matrix handed to the external `markdownTable` renderer,
which is kept abstract. -/
inductive ReportContent where
  | noDifferences : ReportContent
  | table : List (List String) → ReportContent
deriving DecidableEq

/-- From `src/main.ts` (`run`, report construction): the literal string
"No differences" when the diff sequence is empty, else the table of all
rows under the fixed three-column header. -/
def buildReport (ws : String) (diff : List FileCoverageDiff) : ReportContent :=
  if diff.length = 0 then ReportContent.noDifferences
  else ReportContent.table (["Filename", "Lines", "Branches"] :: diff.map (formatDiff ws))

/-- JavaScript falsiness of the optional pull-request number
(`github.context.issue.number`): absent or zero. -/
def isFalsy : Option Nat → Bool
  | none => true
  | some n => n == 0

/-- Observable outcome of the publication phase of `run`: warnings and
info lines written to the log, comments created via the remote API, and
whether a failure status was set. -/
structure PublishOutcome where
  warnings : List String
  infos : List String
  comments : List String
  failed : Bool
deriving DecidableEq

/-- From `src/main.ts` (`run`, publication phase): when no PR id is
resolvable, warn and log the message instead of publishing, completing
successfully; otherwise create the comment (the remote call is modelled as
succeeding). -/
def publishReport (issueNumber : Option Nat) (message : String) : PublishOutcome :=
  if isFalsy issueNumber then
    ⟨["Cannot find the PR id."], [message], [], false⟩
  else
    ⟨[], [], [message], false⟩

/-- Evaluation of the end-to-end scenario: base has `a.rb` with lines
[1,1,0], head has `a.rb` with lines [1,1,1]; the single diff record carries
the full-precision line percentages 200/3 and 100 and null branch
percentages. -/
lemma diff_scenario_eval :
    getCoverageDiff
        (buildCoverage [("RSpec", [("a.rb", ⟨[some 1, some 1, some 0], []⟩)])])
        (buildCoverage [("RSpec", [("a.rb", ⟨[some 1, some 1, some 1], []⟩)])])
      = [⟨"a.rb", ⟨some (200 / 3), some 100⟩, ⟨none, none⟩⟩] := by
  have hb : buildCoverage [("RSpec", [("a.rb", ⟨[some 1, some 1, some 0], []⟩)])]
      = ⟨[("a.rb", ⟨[some 1, some 1, some 0], []⟩)]⟩ := by
    norm_num [buildCoverage, addFile]
  have hh : buildCoverage [("RSpec", [("a.rb", ⟨[some 1, some 1, some 1], []⟩)])]
      = ⟨[("a.rb", ⟨[some 1, some 1, some 1], []⟩)]⟩ := by
    norm_num [buildCoverage, addFile]
  rw [hb, hh]
  simp only [getCoverageDiff, unionPaths, covPaths, List.map, List.cons_append, List.nil_append]
  norm_num [diffRecord, List.lookup, firstSeen, List.filter, List.filterMap,
    linesPercentage, branchesPercentage, coveredCount, instrumentableCount,
    List.countP_cons, Option.bind]

/-- C2: the line percentage is null exactly when the file has zero
instrumentable line entries, and otherwise equals covered over
instrumentable times 100; the sample lines [1, 0, null, 3] give 2/3 * 100. -/
theorem linesPercentage_spec (lines : List (Option Nat)) :
    (linesPercentage lines = none ↔ instrumentableCount lines = 0) ∧
    (instrumentableCount lines ≠ 0 →
      linesPercentage lines
        = some ((coveredCount lines : ℚ) / (instrumentableCount lines : ℚ) * 100)) ∧
    linesPercentage [some 1, some 0, none, some 3] = some (2 / 3 * 100) := by
  refine ⟨?_, fun h => ?_,
    by norm_num [linesPercentage, coveredCount, instrumentableCount, List.countP_cons]⟩
  · unfold linesPercentage
    split <;> simp_all
  · unfold linesPercentage
    rw [if_neg h]

/-- Witness for C2 at the one-line file [some 1]. -/
theorem linesPercentage_spec_witness :
    instrumentableCount [some 1] ≠ 0 ∧
    linesPercentage [some 1]
      = some ((coveredCount [some 1] : ℚ) / (instrumentableCount [some 1] : ℚ) * 100) :=
  ⟨by decide, (linesPercentage_spec [some 1]).2.1 (by decide)⟩

/-- C3: two top-level suites reporting the same file path are merged into
one record by `mergeFileCoverage` (element-wise line summation, key-union
branch summation); the sample suites with lines [1, 0] and [0, 2] merge to
[1, 2], whose line percentage is 100. -/
theorem buildCoverage_merge :
    (∀ (s₁ s₂ p : String) (f₁ f₂ : FileCoverage),
      (buildCoverage [(s₁, [(p, f₁)]), (s₂, [(p, f₂)])]).files
        = [(p, mergeFileCoverage f₁ f₂)]) ∧
    (buildCoverage [("suite1", [("f.rb", ⟨[some 1, some 0], []⟩)]),
        ("suite2", [("f.rb", ⟨[some 0, some 2], []⟩)])]).files
      = [("f.rb", ⟨[some 1, some 2], []⟩)] ∧
    ((buildCoverage [("suite1", [("f.rb", ⟨[some 1, some 0], []⟩)]),
        ("suite2", [("f.rb", ⟨[some 0, some 2], []⟩)])]).files.lookup "f.rb").bind
      (fun fc => linesPercentage fc.lines) = some 100 := by
  have hfiles :
      (buildCoverage [("suite1", [("f.rb", ⟨[some 1, some 0], []⟩)]),
          ("suite2", [("f.rb", ⟨[some 0, some 2], []⟩)])]).files
        = [("f.rb", ⟨[some 1, some 2], []⟩)] := by
    norm_num [buildCoverage, addFile, mergeFileCoverage, mergeLines, mergeBranches,
      mergeLine, List.lookup]
  refine ⟨fun s₁ s₂ p f₁ f₂ => ?_, hfiles, ?_⟩
  · simp [buildCoverage, addFile]
  · rw [hfiles]
    norm_num [List.lookup, Option.bind, linesPercentage, coveredCount,
      instrumentableCount, List.countP_cons]
    simp

/-- C4: truncPercentage obeys the sign-preserving truncation law
sign(x) * floor(|x| * 10) / 10, with the two required sample values
truncPercentage(66.666) = 66.6 and truncPercentage(-0.05) = 0. -/
theorem truncPercentage_law :
    (∀ x : ℚ, truncPercentage x
      = (if 0 < x then (1 : ℚ) else if x < 0 then -1 else 0) * ((⌊|x| * 10⌋ : ℚ) / 10)) ∧
    truncPercentage (66666 / 1000) = 666 / 10 ∧
    truncPercentage (-(1 / 20)) = 0 := by
  refine ⟨fun x => ?_, by norm_num [truncPercentage, jsSign, jsTrunc, abs],
    by norm_num [truncPercentage, jsSign, jsTrunc, abs]⟩
  unfold truncPercentage jsSign jsTrunc
  rw [if_pos (mul_nonneg (abs_nonneg x) (by norm_num))]

/-- C5 counterexample: on the specified base and head documents the emitted
record stores lines.from at full precision, 200/3, which is not the claimed
66.67. -/
theorem diff_scenario_cex :
    getCoverageDiff
        (buildCoverage [("RSpec", [("a.rb", ⟨[some 1, some 1, some 0], []⟩)])])
        (buildCoverage [("RSpec", [("a.rb", ⟨[some 1, some 1, some 1], []⟩)])])
      ≠ [⟨"a.rb", ⟨some (6667 / 100), some 100⟩, ⟨none, none⟩⟩] := by
  rw [diff_scenario_eval]
  intro h
  have h' := (List.cons.inj h).1
  simp only [FileCoverageDiff.mk.injEq, DiffEntry.mk.injEq, Option.some.injEq] at h'
  have : (200 : ℚ) / 3 = 6667 / 100 := h'.2.1.1
  norm_num at this

/-- C5 (amended): for the base document with `a.rb` lines [1,1,0] and the
head document with `a.rb` lines [1,1,1], the diff engine emits exactly the
record with filename "a.rb", lines from 200/3 (the full-precision value,
approximately 66.67) to 100, and null branch values. -/
theorem diff_scenario :
    getCoverageDiff
        (buildCoverage [("RSpec", [("a.rb", ⟨[some 1, some 1, some 0], []⟩)])])
        (buildCoverage [("RSpec", [("a.rb", ⟨[some 1, some 1, some 1], []⟩)])])
      = [⟨"a.rb", ⟨some (200 / 3), some 100⟩, ⟨none, none⟩⟩] :=
  diff_scenario_eval

/-- C7: the rendered diff cell per null-pattern of from/to: empty when both
are null, prefixed NEW exactly in the head-only case, exactly DELETE in the
base-only case, and plain percentage plus badge (no label) when both are
present. -/
theorem formatDiffItem_labels (e : DiffEntry) :
    (e.«from» = none → e.«to» = none → formatDiffItem e = "") ∧
    (∀ t, e.«from» = none → e.«to» = some t →
      formatDiffItem e = "NEW" ++ (" " ++ toString (truncPercentage t) ++ "%")) ∧
    (∀ f, e.«from» = some f → e.«to» = none → formatDiffItem e = "DELETE") ∧
    (∀ f t, e.«from» = some f → e.«to» = some t →
      formatDiffItem e = (" " ++ toString (truncPercentage t) ++ "%") ++
        (" ![" ++ toString (truncPercentage (t - f)) ++ "%](" ++ badgeUrl f t ++ ")")) := by
  obtain ⟨fr, t⟩ := e
  refine ⟨?_, ?_, ?_, ?_⟩ <;> intros <;> subst_vars <;>
    simp [formatDiffItem, String.append_assoc]

/-- Witness for C7 at the both-null and base-only cells. -/
theorem formatDiffItem_labels_witness :
    formatDiffItem ⟨none, none⟩ = "" ∧ formatDiffItem ⟨some 1, none⟩ = "DELETE" :=
  ⟨(formatDiffItem_labels ⟨none, none⟩).1 rfl rfl,
   (formatDiffItem_labels ⟨some 1, none⟩).2.2.1 1 rfl rfl⟩

/-- C8: when no pull-request id is resolvable (absent or zero), the run
warns, logs the computed message instead of publishing it, creates no
comment, and sets no failure status. -/
theorem publishReport_no_pr (issueNumber : Option Nat) (message : String)
    (h : isFalsy issueNumber = true) :
    publishReport issueNumber message
      = ⟨["Cannot find the PR id."], [message], [], false⟩ := by
  simp [publishReport, h]

/-- Witness for C8 at an absent pull-request id. -/
theorem publishReport_no_pr_witness :
    isFalsy none = true ∧
    publishReport none "report" = ⟨["Cannot find the PR id."], ["report"], [], false⟩ :=
  ⟨rfl, publishReport_no_pr none "report" rfl⟩

/-- C9: the diff computation is deterministic: equal immutable inputs give
equal outputs, ordering and values included. -/
theorem getCoverageDiff_deterministic (b₁ h₁ b₂ h₂ : Coverage)
    (hb : b₁ = b₂) (hh : h₁ = h₂) :
    getCoverageDiff b₁ h₁ = getCoverageDiff b₂ h₂ := by
  rw [hb, hh]

/-- Witness for C9 at a pair of empty documents. -/
theorem getCoverageDiff_deterministic_witness :
    getCoverageDiff ⟨[]⟩ ⟨[]⟩ = getCoverageDiff ⟨[]⟩ ⟨[]⟩ :=
  getCoverageDiff_deterministic ⟨[]⟩ ⟨[]⟩ ⟨[]⟩ ⟨[]⟩ rfl rfl

/-- Membership in the first-seen deduplication is membership in the
original list. -/
lemma firstSeen_mem (a : String) (l : List String) : a ∈ firstSeen l ↔ a ∈ l := by
  induction l using firstSeen.induct with
  | case1 => simp [firstSeen]
  | case2 x xs ih =>
    simp only [firstSeen, List.mem_cons, ih, List.mem_filter, decide_eq_true_eq, ne_eq]
    by_cases hax : a = x
    · simp [hax]
    · simp [hax]

/-- The first-seen deduplication has no duplicates. -/
lemma firstSeen_nodup (l : List String) : (firstSeen l).Nodup := by
  induction l using firstSeen.induct with
  | case1 => simp [firstSeen]
  | case2 x xs ih =>
    simp only [firstSeen, List.nodup_cons]
    refine ⟨fun hx => ?_, ih⟩
    rw [firstSeen_mem] at hx
    simp [List.mem_filter] at hx

/-- A path appearing as a key of a coverage document has a successful
lookup. -/
lemma lookup_isSome_of_mem_covPaths (c : Coverage) (p : String) (hp : p ∈ covPaths c) :
    (c.files.lookup p).isSome := by
  rw [List.lookup_isSome_iff]
  rcases List.mem_map.1 hp with ⟨q, hq, rfl⟩
  exact ⟨q, hq, by simp⟩

/-- For every path of the union, the diff engine emits exactly one record
carrying that path as its filename. -/
lemma diffRecord_eq_some (base head : Coverage) (p : String)
    (hp : p ∈ covPaths head ++ covPaths base) :
    ∃ r, diffRecord base head p = some r ∧ r.filename = p := by
  have hne : ¬(base.files.lookup p = none ∧ head.files.lookup p = none) := by
    rintro ⟨hb, hh⟩
    rcases List.mem_append.1 hp with h | h
    · have := lookup_isSome_of_mem_covPaths head p h
      rw [hh] at this
      simp at this
    · have := lookup_isSome_of_mem_covPaths base p h
      rw [hb] at this
      simp at this
  unfold diffRecord
  cases hb : base.files.lookup p with
  | none =>
    cases hh : head.files.lookup p with
    | none => exact absurd ⟨hb, hh⟩ hne
    | some fh => exact ⟨_, rfl, rfl⟩
  | some fb =>
    cases hh : head.files.lookup p with
    | none => exact ⟨_, rfl, rfl⟩
    | some fh => exact ⟨_, rfl, rfl⟩

/-- Mapping the filename over a filterMap whose function always succeeds
and reproduces the path recovers the path list. -/
lemma map_filename_filterMap (g : String → Option FileCoverageDiff) :
    ∀ l : List String, (∀ p ∈ l, ∃ r, g p = some r ∧ r.filename = p) →
      (l.filterMap g).map FileCoverageDiff.filename = l := by
  intro l
  induction l with
  | nil => intro _; rfl
  | cons x xs ih =>
    intro h
    obtain ⟨r, hr, hname⟩ := h x (List.mem_cons_self x xs)
    rw [List.filterMap_cons, hr]
    simp only [List.map_cons, hname]
    rw [ih fun p hp => h p (List.mem_cons_of_mem _ hp)]

/-- The filenames of the diff are exactly the union path list. -/
lemma map_filename_getCoverageDiff (base head : Coverage) :
    (getCoverageDiff base head).map FileCoverageDiff.filename = unionPaths base head :=
  map_filename_filterMap _ _ fun p hp =>
    diffRecord_eq_some base head p ((firstSeen_mem p _).1 hp)

/-- A nodup list containing an element has exactly one occurrence of it. -/
lemma length_filter_eq_one_of_nodup :
    ∀ {l : List String} {p : String}, l.Nodup → p ∈ l →
      (l.filter (fun x => decide (x = p))).length = 1 := by
  intro l
  induction l with
  | nil => intro p _ hp; cases hp
  | cons x xs ih =>
    intro p hnd hp
    rw [List.nodup_cons] at hnd
    rcases List.mem_cons.1 hp with rfl | hmem
    · have hfil : xs.filter (fun y => decide (y = p)) = [] := by
        rw [List.filter_eq_nil_iff]
        intro a ha
        simp only [decide_eq_true_eq]
        exact fun h => hnd.1 (h ▸ ha)
      simp [List.filter_cons, hfil]
    · have hxp : ¬(x = p) := fun h => hnd.1 (h ▸ hmem)
      simp [List.filter_cons, hxp, ih hnd.2 hmem]

/-- C1: the diff covers the union of file paths of base and head: its
length is the cardinality of the union, and every path of the union is the
filename of exactly one emitted record. -/
theorem getCoverageDiff_complete (base head : Coverage) :
    (getCoverageDiff base head).length
      = ((covPaths base).toFinset ∪ (covPaths head).toFinset).card ∧
    ∀ p : String, p ∈ covPaths base ∨ p ∈ covPaths head →
      ((getCoverageDiff base head).filter (fun r => decide (r.filename = p))).length = 1 := by
  have hmap := map_filename_getCoverageDiff base head
  constructor
  · have hlen : (getCoverageDiff base head).length = (unionPaths base head).length := by
      rw [← hmap, List.length_map]
    have hcard : (unionPaths base head).length
        = ((covPaths head ++ covPaths base).toFinset).card := by
      unfold unionPaths
      rw [← List.toFinset_card_of_nodup (firstSeen_nodup _)]
      congr 1
      ext a
      simp [List.mem_toFinset, firstSeen_mem]
    rw [hlen, hcard, List.toFinset_append, Finset.union_comm]
  · intro p hp
    have hpm : p ∈ unionPaths base head := by
      unfold unionPaths
      rw [firstSeen_mem, List.mem_append]
      exact hp.symm.imp id id
    have hflt : ((getCoverageDiff base head).filter
        (fun r => decide (r.filename = p))).length
        = ((unionPaths base head).filter (fun x => decide (x = p))).length := by
      rw [← hmap, List.filter_map, List.length_map]
      rfl
    rw [hflt]
    exact length_filter_eq_one_of_nodup (firstSeen_nodup _) hpm

/-- Witness for C1 at a one-file base document and an empty head document. -/
theorem getCoverageDiff_complete_witness :
    ("a.rb" ∈ covPaths (Coverage.mk [("a.rb", ⟨[some 1], []⟩)]) ∨
      "a.rb" ∈ covPaths (Coverage.mk [])) ∧
    ((getCoverageDiff (Coverage.mk [("a.rb", ⟨[some 1], []⟩)]) (Coverage.mk [])).filter
      (fun r => decide (r.filename = "a.rb"))).length = 1 :=
  ⟨Or.inl (by simp [covPaths]),
   (getCoverageDiff_complete (Coverage.mk [("a.rb", ⟨[some 1], []⟩)]) (Coverage.mk [])).2
     "a.rb" (Or.inl (by simp [covPaths]))⟩

/-- The diff sequence is empty exactly when both documents carry no files. -/
lemma getCoverageDiff_eq_nil_iff (base head : Coverage) :
    getCoverageDiff base head = [] ↔ base.files = [] ∧ head.files = [] := by
  constructor
  · intro h
    by_contra hcon
    have hne : covPaths head ++ covPaths base ≠ [] := by
      intro happ
      rcases List.append_eq_nil.mp happ with ⟨hh, hb⟩
      exact hcon ⟨List.map_eq_nil_iff.mp hb, List.map_eq_nil_iff.mp hh⟩
    obtain ⟨a, as, hl⟩ := List.exists_cons_of_ne_nil hne
    have hfs : unionPaths base head
        = a :: firstSeen (as.filter (fun y => decide (y ≠ a))) := by
      rw [unionPaths, hl, firstSeen]
    have ha : a ∈ covPaths head ++ covPaths base := by
      rw [hl]
      exact List.mem_cons_self a as
    obtain ⟨r, hr, _⟩ := diffRecord_eq_some base head a ha
    unfold getCoverageDiff at h
    rw [hfs, List.filterMap_cons, hr] at h
    cases h
  · rintro ⟨hb, hh⟩
    unfold getCoverageDiff unionPaths covPaths
    rw [hb, hh]
    simp [firstSeen]

/-- C6: the report is the literal "No differences" exactly when the diff
sequence is empty, i.e. when both documents carry no files; a non-empty
diff always renders the three-column table headed Filename, Lines,
Branches with one row per record, unchanged records included. -/
theorem buildReport_spec (ws : String) (base head : Coverage) :
    (buildReport ws (getCoverageDiff base head) = ReportContent.noDifferences
      ↔ base.files = [] ∧ head.files = []) ∧
    ∀ diff : List FileCoverageDiff, diff ≠ [] →
      buildReport ws diff
        = ReportContent.table
            (["Filename", "Lines", "Branches"] :: diff.map (formatDiff ws)) := by
  constructor
  · rw [← getCoverageDiff_eq_nil_iff base head]
    unfold buildReport
    constructor
    · intro h
      by_cases hlen : (getCoverageDiff base head).length = 0
      · exact List.length_eq_zero.mp hlen
      · rw [if_neg hlen] at h
        exact absurd h (by simp)
    · intro h
      rw [if_pos (by simp [h])]
  · intro diff hd
    unfold buildReport
    rw [if_neg (by simpa using hd)]

/-- Witness for C6 at a one-record diff sequence whose from and to agree. -/
theorem buildReport_spec_witness :
    ([(⟨"a.rb", ⟨none, none⟩, ⟨none, none⟩⟩ : FileCoverageDiff)] ≠ []) ∧
    buildReport "" [⟨"a.rb", ⟨none, none⟩, ⟨none, none⟩⟩]
      = ReportContent.table (["Filename", "Lines", "Branches"]
          :: [(⟨"a.rb", ⟨none, none⟩, ⟨none, none⟩⟩ : FileCoverageDiff)].map (formatDiff "")) :=
  ⟨by simp, (buildReport_spec "" ⟨[]⟩ ⟨[]⟩).2 [⟨"a.rb", ⟨none, none⟩, ⟨none, none⟩⟩] (by simp)⟩

/-- C10: a filename is trimmed exactly when it starts with the workspace
root followed by a slash, in which case exactly that prefix is removed;
otherwise, in particular for the bare workspace root itself, it is
unchanged. -/
theorem trimWorkspacePath_spec (ws f : String) :
    (jsStartsWith f (ws ++ "/") = true →
      (ws ++ "/") ++ trimWorkspacePath ws f = f) ∧
    (jsStartsWith f (ws ++ "/") = false → trimWorkspacePath ws f = f) ∧
    trimWorkspacePath ws ws = ws := by
  refine ⟨fun h => ?_, fun h => ?_, ?_⟩
  · unfold trimWorkspacePath
    rw [if_pos h]
    apply String.ext
    rw [String.data_append]
    show (ws ++ "/").data ++ f.data.drop ((ws ++ "/").data.length) = f.data
    have hpre : (ws ++ "/").data <+: f.data := by
      unfold jsStartsWith at h
      exact List.isPrefixOf_iff_prefix.mp h
    exact List.prefix_iff_eq_append.mp hpre
  · unfold trimWorkspacePath
    rw [if_neg (by simp [h])]
  · unfold trimWorkspacePath
    rw [if_neg ?_]
    intro hcon
    unfold jsStartsWith at hcon
    have hpre := List.isPrefixOf_iff_prefix.mp hcon
    have hlen := hpre.length_le
    rw [String.data_append, List.length_append] at hlen
    have h1 : ("/" : String).data.length = 1 := rfl
    rw [h1] at hlen
    omega

/-- Witness for C10 at workspace root "ws" and filename "ws/a.rb". -/
theorem trimWorkspacePath_spec_witness :
    jsStartsWith "ws/a.rb" ("ws" ++ "/") = true ∧
    ("ws" ++ "/") ++ trimWorkspacePath "ws" "ws/a.rb" = "ws/a.rb" :=
  ⟨by decide, (trimWorkspacePath_spec "ws" "ws/a.rb").1 (by decide)⟩

end SimplecovDiff
